import Mathlib

/-!
Verification of the GF(2^8) bit-vector arithmetic engine (task1.py).

The Python source implements three layers:
  * `BitNumber`   : a wrapper around a non-negative integer with a cached bit
                    length `len(bin(n)[2:])`, bounds-checked bit access,
                    xor and shifts;
  * `GFNumber`    : a Galois-field polynomial over GF(2) with xor addition and
                    shift-and-xor multiplication;
  * `GF8Number`   : the GF(2^8) specialization with a reduction ("shrink") step
                    modulo the fixed polynomial 0b100011011 = 0x11b.

The shallow embedding below represents values as `Nat` (the wrapped integer) and
fallible operations as `Except Err`.  Python's `ValueError`/`TypeError` raised by
`assert_value`/`assert_type` are modelled by `Err` carrying the exact message.
-/

deriving instance DecidableEq for Except

namespace GF8Py

/-- Errors raised by the Python helpers `assert_value` / `assert_type`. -/
inductive Err where
  | valueError (msg : String)
  | typeError (msg : String)
deriving DecidableEq

/-- Fuel-driven binary length: number of binary digits of `n` (0 for `n = 0`),
structured so the kernel can evaluate it.  The fuel is always taken to be `n`
itself, which is enough since a number has at most `n` binary digits. -/
def bitLenCore (fuel n : Nat) : Nat :=
  match fuel, n with
  | 0, _ => 0
  | _ + 1, 0 => 0
  | f + 1, m + 1 => bitLenCore f ((m + 1) / 2) + 1

/-- Embeds `BitNumber.__len__`: the Python constructor caches
`len(bin(number)[2:])`.  Note `bin(0) = '0b0'`, so the length of the zero
vector is 1, not 0. -/
def pyBitLen (n : Nat) : Nat :=
  if n = 0 then 1 else bitLenCore n n

/-- Embeds `BitNumber.__getitem__` (with its Python `int` index):
`assert_value(0 <= index < len(self))`, then `(number >> index) % 2`. -/
def getBitI (n : Nat) (index : Int) : Except Err Nat :=
  if 0 ≤ index ∧ index < (pyBitLen n : Int) then
    Except.ok ((n >>> index.toNat) % 2)
  else
    Except.error (Err.valueError "Assertion failed: 0 <= index < len(self)")

/-- Bit access at a natural-number index (the indices produced inside the
source's loops are non-negative). -/
def getBitN (n k : Nat) : Except Err Nat :=
  getBitI n (Int.ofNat k)

/-- Embeds `BitNumber.__iter__`: yields `self[i]` for `i in range(len(self))`,
i.e. the bits from least significant upward; all indices are in range. -/
def bitsOf (n : Nat) : List Nat :=
  (List.range (pyBitLen n)).map (fun i => (n >>> i) % 2)

/-- Runtime classes of the field-element objects; `GFNumber.__add__` always
builds a plain `GFNumber`, even when invoked on a `GF8Number`. -/
inductive PyClass where
  | gfNumber
  | gf8Number
deriving DecidableEq

/-- A field-element object: its runtime class together with the wrapped
integer value of its `BitNumber`. -/
structure GFVal where
  cls : PyClass
  val : Nat
deriving DecidableEq

/-- Embeds `GFNumber.__add__`: `GFNumber(self._number ^ other._number)` —
bitwise xor of the values, and the result is constructed as a plain
`GFNumber` (the method is inherited unchanged by `GF8Number`). -/
def gfAddObj (self other : GFVal) : GFVal :=
  { cls := PyClass.gfNumber, val := self.val ^^^ other.val }

/-- Value-level field addition, `GFNumber.__add__` on the wrapped integers. -/
def gfAdd (a b : Nat) : Nat := a ^^^ b

/-- Embeds the loop of `GFNumber.__mul__`: after `m` iterations over the bits
of `other` (read as `(b >> k) % 2`, tested for truthiness), the accumulator
`result` holds the xor of `a << k` over the set bits `k < m` of `b`. -/
def clMulAux (a b : Nat) : Nat → Nat
  | 0 => 0
  | k + 1 =>
    if (b >>> k) % 2 = 1 then clMulAux a b k ^^^ (a <<< k) else clMulAux a b k

/-- Embeds `GFNumber.__mul__`: iterate over all `len(other._number)` bits of
`other` (which is `pyBitLen b`), xoring shifted copies of `a`. -/
def clMul (a b : Nat) : Nat :=
  clMulAux a b (pyBitLen b)

/-- Embeds the term formatting in `GFNumber.__str__`:
`'1'` for degree 0, `'x'` for degree 1, and `f'x{power}'` otherwise. -/
def term (i : Nat) : String :=
  if i = 0 then "1" else if i = 1 then "x" else "x" ++ toString i

/-- Embeds the accumulation loop of `GFNumber.__str__`: the pair is
`(str_, print_num)` after scanning bits `0, …, k-1`.  For a set bit the code
first prepends `' + '` when `print_num` is non-zero, then prepends the term. -/
def strLoop (n : Nat) : Nat → String × Nat
  | 0 => ("", 0)
  | k + 1 =>
    if (n >>> k) % 2 = 1 then
      (term k ++ (if (strLoop n k).2 = 0 then (strLoop n k).1 else " + " ++ (strLoop n k).1),
       (strLoop n k).2 + 1)
    else strLoop n k

/-- Embeds `GFNumber.__str__`: run the accumulation loop over all bits. -/
def pyStr (n : Nat) : String :=
  (strLoop n (pyBitLen n)).1

/-- Modelled from the spec's words ("joined by ` + `"): joins a list of terms
with the separator ` + `, the empty list giving the empty string. -/
def joinTerms : List String → String
  | [] => ""
  | [t] => t
  | t :: t2 :: ts => t ++ " + " ++ joinTerms (t2 :: ts)

/-- Modelled from the spec's words: the set-bit positions of `n` in descending
order ("for each set bit i, from highest to lowest"). -/
def descBits (n : Nat) : List Nat :=
  (List.filter (fun i => n.testBit i) (List.range (pyBitLen n))).reverse

/-- Modelled from the spec's words: emit the term for each set bit from highest
to lowest, joined by ` + `; the zero polynomial renders as the empty string. -/
def specStr (n : Nat) : String :=
  joinTerms (List.map term (descBits n))

/-- Lowercase hexadecimal digit for `d < 16`, as Python's `hex` produces. -/
def hexDigit (d : Nat) : Char :=
  if d < 10 then Char.ofNat (48 + d) else Char.ofNat (87 + d)

/-- Fuel-driven most-significant-first hex digits of `n` (empty for 0). -/
def hexRepAux (fuel n : Nat) : List Char :=
  match fuel, n with
  | 0, _ => []
  | _ + 1, 0 => []
  | f + 1, m + 1 => hexRepAux f ((m + 1) / 16) ++ [hexDigit ((m + 1) % 16)]

/-- Embeds `BitNumber.__hex__`: `hex(number)[2:]`, lowercase digits with no
prefix and no leading zeros, `"0"` for zero. -/
def pyHexBody (n : Nat) : String :=
  if n = 0 then "0" else String.mk (hexRepAux n n)

/-- Embeds Python's `str.rjust(width, fill)`. -/
def pyRjust (s : String) (width : Nat) (fill : Char) : String :=
  String.mk (List.replicate (width - s.length) fill) ++ s

/-- Embeds `GF8Number.MAX_BITS`. -/
def MAX_BITS : Nat := 8

/-- Embeds `GF8Number.SHRINK_MODULO = BitNumber(0b100011011)`. -/
def SHRINK_MODULO : Nat := 0b100011011

/-- Embeds `GF8Number.__hex__`: the un-prefixed hex digits right-justified to
`MAX_BITS // 4 = 2` characters with `'0'`, behind the given prefix string. -/
def gf8Hex (v : Nat) (pfx : String) : String :=
  pfx ++ pyRjust (pyHexBody v) (MAX_BITS / 4) '0'

/-- Embeds the descending loop of `GF8Number.__shrink`: with `j + 1` indices
left, the current index is `i = MAX_BITS + j`; the loop reads `self[i]` through
the bounds-checked indexer (whose bound is the length of the *current*
`_number`, freshly recomputed by each xor), and on a set bit xors in
`SHRINK_MODULO << (i - MAX_BITS)`. -/
def scanDown (v : Nat) : Nat → Except Err Nat
  | 0 => Except.ok v
  | j + 1 =>
    match getBitN v (MAX_BITS + j) with
    | Except.error e => Except.error e
    | Except.ok bit =>
      scanDown (if bit = 1 then v ^^^ (SHRINK_MODULO <<< (MAX_BITS + j - MAX_BITS)) else v) j

/-- Embeds `GF8Number.__shrink`: if the cached length is at most `MAX_BITS`
return `False`; otherwise scan the indices `len(self) - 1, …, MAX_BITS`
descending (the cached length is not refreshed during the scan), then return
`True`.  The result pair is (new value, whether a transformation was needed). -/
def shrink (v : Nat) : Except Err (Nat × Bool) :=
  if pyBitLen v ≤ MAX_BITS then Except.ok (v, false)
  else
    match scanDown v (pyBitLen v - MAX_BITS) with
    | Except.error e => Except.error e
    | Except.ok w => Except.ok (w, true)

/-- Embeds `GF8Number.__init__`: construct, shrink, and if `assert_shrunk` is
set fail with `assert_value(shrunk is False, 'shrunk == False')` whenever the
shrink reported a transformation. -/
def gf8New (n : Nat) (assertShrunk : Bool) : Except Err Nat :=
  match shrink n with
  | Except.error e => Except.error e
  | Except.ok (v, changed) =>
    if assertShrunk && changed then
      Except.error (Err.valueError "Assertion failed: shrunk == False")
    else Except.ok v

/-- Embeds the full claim expression `GF8Number(a) * b`: construct the left
operand (reducing it), coerce the right operand with `assert_shrunk=True`,
multiply with the inherited shift-and-xor loop, wrap the product as a
`GF8Number` (which shrinks it), and shrink the result once more. -/
def gf8Mul (a b : Nat) : Except Err Nat :=
  match gf8New a false with
  | Except.error e => Except.error e
  | Except.ok selfV =>
    match gf8New b true with
    | Except.error e => Except.error e
    | Except.ok otherV =>
      match gf8New (clMul selfV otherV) false with
      | Except.error e => Except.error e
      | Except.ok r =>
        match shrink r with
        | Except.error e => Except.error e
        | Except.ok vw => Except.ok vw.1

/-! Basic facts about the embedded bit length. -/

/-- The Python bit-read `(n >> k) % 2 == 1` agrees with `Nat.testBit`. -/
lemma bit_cond (n k : Nat) : ((n >>> k) % 2 = 1) ↔ n.testBit k := by
  rw [Nat.testBit_to_div_mod, Nat.shiftRight_eq_div_pow]
  simp

/-- Characterization of the fuel-driven binary length, for sufficient fuel. -/
lemma blc_le_iff : ∀ f n, n ≤ f → ∀ k, (bitLenCore f n ≤ k ↔ n < 2 ^ k) := by
  intro f
  induction f with
  | zero =>
    intro n hn k
    have h0 : n = 0 := Nat.le_zero.mp hn
    subst h0
    simp [bitLenCore, Nat.pos_pow_of_pos]
  | succ f ih =>
    intro n hn k
    match n with
    | 0 => simp [bitLenCore, Nat.pos_pow_of_pos]
    | m + 1 =>
      rw [show bitLenCore (f + 1) (m + 1) = bitLenCore f ((m + 1) / 2) + 1 from rfl]
      cases k with
      | zero =>
        rw [pow_zero]
        constructor <;> intro h <;> omega
      | succ j =>
        have hle : (m + 1) / 2 ≤ f := by omega
        rw [Nat.succ_le_succ_iff, ih ((m + 1) / 2) hle j, pow_succ]
        omega

/-- The cached Python length bounds the value: `len(bn) ≤ k ↔ value < 2^k`,
valid for `k ≥ 1` (the zero vector has cached length 1). -/
lemma pyBitLen_le_iff (n k : Nat) (hk : 1 ≤ k) : pyBitLen n ≤ k ↔ n < 2 ^ k := by
  unfold pyBitLen
  split
  · next h =>
    subst h
    simp [hk, Nat.pos_pow_of_pos]
  · exact blc_le_iff n n le_rfl k

/-- Every `BitNumber` has cached length at least 1. -/
lemma one_le_pyBitLen (n : Nat) : 1 ≤ pyBitLen n := by
  cases n with
  | zero => simp [pyBitLen]
  | succ m =>
    simp only [pyBitLen, Nat.succ_ne_zero, if_false]
    rw [show bitLenCore (m + 1) (m + 1) = bitLenCore m ((m + 1) / 2) + 1 from rfl]
    omega

/-- A value is below `2 ^ len(bn)`. -/
lemma lt_two_pow_pyBitLen (n : Nat) : n < 2 ^ pyBitLen n :=
  (pyBitLen_le_iff n (pyBitLen n) (one_le_pyBitLen n)).mp le_rfl

/-- Bits at or beyond the cached length are clear. -/
lemma testBit_false_of_le {n i : Nat} (h : pyBitLen n ≤ i) : n.testBit i = false :=
  Nat.testBit_lt_two_pow
    (lt_of_lt_of_le (lt_two_pow_pyBitLen n) (Nat.pow_le_pow_right (by norm_num) h))

/-! Commutativity of the shift-and-xor product, via the GF(2) coefficient of
each output bit. -/

/-- The bit of `v` at `k`, read in `ZMod 2`. -/
def bz (v k : Nat) : ZMod 2 := if v.testBit k then 1 else 0

lemma bz_xor (x y k : Nat) : bz (x ^^^ y) k = bz x k + bz y k := by
  unfold bz
  rw [Nat.testBit_xor]
  cases hx : x.testBit k <;> cases hy : y.testBit k <;> (simp; try decide)

lemma bz_inj {x y : Nat} (h : ∀ k, bz x k = bz y k) : x = y := by
  apply Nat.eq_of_testBit_eq
  intro i
  have hi := h i
  unfold bz at hi
  cases hx : x.testBit i <;> cases hy : y.testBit i <;> rw [hx, hy] at hi <;>
    first
      | rfl
      | exact absurd hi (by decide)

lemma bz_shiftLeft (a i k : Nat) :
    bz (a <<< i) k = if i ≤ k ∧ a.testBit (k - i) then 1 else 0 := by
  unfold bz
  rw [Nat.testBit_shiftLeft]
  by_cases h : i ≤ k <;> simp [h, ge_iff_le]

lemma clMulAux_bz (a b k : Nat) : ∀ m, bz (clMulAux a b m) k
    = ∑ i ∈ Finset.range m, (if b.testBit i then bz (a <<< i) k else 0) := by
  intro m
  induction m with
  | zero => simp [clMulAux, bz, Nat.zero_testBit]
  | succ m ih =>
    rw [Finset.sum_range_succ, ← ih]
    show bz (if (b >>> m) % 2 = 1 then clMulAux a b m ^^^ (a <<< m) else clMulAux a b m) k = _
    by_cases hb : b.testBit m
    · rw [if_pos ((bit_cond b m).mpr hb), if_pos hb, bz_xor]
    · rw [if_neg (fun hc => hb ((bit_cond b m).mp hc)), if_neg hb, add_zero]

lemma clMul_bz (a b k : Nat) :
    bz (clMul a b) k = ∑ i ∈ Finset.range (k + 1),
      (if b.testBit i ∧ a.testBit (k - i) then (1 : ZMod 2) else 0) := by
  rw [clMul, clMulAux_bz]
  have step : ∀ i, (if b.testBit i then bz (a <<< i) k else 0)
      = if b.testBit i ∧ i ≤ k ∧ a.testBit (k - i) then (1 : ZMod 2) else 0 := by
    intro i
    rw [bz_shiftLeft]
    by_cases h1 : (b.testBit i : Prop) <;>
      by_cases h2 : i ≤ k ∧ (a.testBit (k - i) : Prop) <;> simp [h1, h2]
  simp only [step]
  have hL : ∑ i ∈ Finset.range (pyBitLen b),
        (if b.testBit i ∧ i ≤ k ∧ a.testBit (k - i) then (1 : ZMod 2) else 0)
      = ∑ i ∈ Finset.range (max (pyBitLen b) (k + 1)),
        (if b.testBit i ∧ i ≤ k ∧ a.testBit (k - i) then (1 : ZMod 2) else 0) := by
    apply Finset.sum_subset (Finset.range_subset.mpr (le_max_left _ _))
    intro x hx hnx
    have hxb : pyBitLen b ≤ x :=
      Nat.le_of_not_lt (fun hc => hnx (Finset.mem_range.mpr hc))
    simp [testBit_false_of_le hxb]
  have hR : ∑ i ∈ Finset.range (k + 1),
        (if b.testBit i ∧ a.testBit (k - i) then (1 : ZMod 2) else 0)
      = ∑ i ∈ Finset.range (max (pyBitLen b) (k + 1)),
        (if b.testBit i ∧ i ≤ k ∧ a.testBit (k - i) then (1 : ZMod 2) else 0) := by
    have hcong : ∀ i ∈ Finset.range (k + 1),
        (if b.testBit i ∧ a.testBit (k - i) then (1 : ZMod 2) else 0)
          = if b.testBit i ∧ i ≤ k ∧ a.testBit (k - i) then (1 : ZMod 2) else 0 := by
      intro i hi
      have hik : i ≤ k := Nat.lt_succ_iff.mp (Finset.mem_range.mp hi)
      simp [hik]
    rw [Finset.sum_congr rfl hcong]
    apply Finset.sum_subset (Finset.range_subset.mpr (le_max_right _ _))
    intro x hx hnx
    have hxk : ¬ x ≤ k := fun hc => hnx (Finset.mem_range.mpr (Nat.lt_succ_iff.mpr hc))
    simp [hxk]
  rw [hL, hR]

/-- The shift-and-xor polynomial product of `GFNumber.__mul__` is commutative. -/
lemma clMul_comm (a b : Nat) : clMul a b = clMul b a := by
  apply bz_inj
  intro k
  rw [clMul_bz a b k, clMul_bz b a k]
  rw [← Finset.sum_range_reflect
    (fun i => if b.testBit i ∧ a.testBit (k - i) then (1 : ZMod 2) else 0) (k + 1)]
  apply Finset.sum_congr rfl
  intro j hj
  have hjk : j ≤ k := Nat.lt_succ_iff.mp (Finset.mem_range.mp hj)
  have h1 : k + 1 - 1 - j = k - j := by omega
  have h2 : k - (k - j) = j := Nat.sub_sub_self hjk
  rw [h1, h2]
  exact if_congr and_comm rfl rfl

/-! Reduction facts for already-small values. -/

/-- Shrinking a value that already fits in 8 bits reports no transformation. -/
lemma shrink_small {n : Nat} (h : pyBitLen n ≤ 8) : shrink n = Except.ok (n, false) := by
  unfold shrink
  rw [if_pos (show pyBitLen n ≤ MAX_BITS from h)]

/-- Constructing a `GF8Number` from a value that already fits in 8 bits
succeeds unchanged, in either strictness mode. -/
lemma gf8New_small {n : Nat} (h : pyBitLen n ≤ 8) (s : Bool) : gf8New n s = Except.ok n := by
  unfold gf8New
  rw [shrink_small h]
  simp

/-- For operands already fitting in 8 bits, `GF8Number(a) * b` is the
post-processing of the raw product `clMul a b`. -/
lemma gf8Mul_eq_small {a b : Nat} (ha : pyBitLen a ≤ 8) (hb : pyBitLen b ≤ 8) :
    gf8Mul a b
      = match gf8New (clMul a b) false with
        | Except.error e => Except.error e
        | Except.ok r =>
          match shrink r with
          | Except.error e => Except.error e
          | Except.ok vw => Except.ok vw.1 := by
  unfold gf8Mul
  rw [gf8New_small ha false, gf8New_small hb true]

/-! The accumulation loop of `GFNumber.__str__` produces exactly the
descending-degree join described by the spec. -/

lemma strLoop_spec (n : Nat) : ∀ k,
    strLoop n k
      = (joinTerms (List.map term
           (List.filter (fun i => n.testBit i) (List.range k)).reverse),
         (List.filter (fun i => n.testBit i) (List.range k)).length) := by
  intro k
  induction k with
  | zero => rfl
  | succ k ih =>
    have hs : strLoop n (k + 1)
        = if (n >>> k) % 2 = 1 then
            (term k ++ (if (strLoop n k).2 = 0 then (strLoop n k).1
                        else " + " ++ (strLoop n k).1),
             (strLoop n k).2 + 1)
          else strLoop n k := rfl
    rw [hs, ih]
    cases hbit : n.testBit k with
    | true =>
      rw [if_pos ((bit_cond n k).mpr hbit)]
      have hfk : List.filter (fun i => n.testBit i) [k] = [k] := by simp [hbit]
      rw [List.range_succ, List.filter_append, hfk, List.reverse_append]
      dsimp only
      by_cases hL : List.filter (fun i => n.testBit i) (List.range k) = []
      · simp [hL, joinTerms, String.append_empty]
      · obtain ⟨y, ys, hrev⟩ : ∃ y ys,
            (List.filter (fun i => n.testBit i) (List.range k)).reverse = y :: ys := by
          cases hrev : (List.filter (fun i => n.testBit i) (List.range k)).reverse with
          | nil => exact absurd (List.reverse_eq_nil_iff.mp hrev) hL
          | cons y ys => exact ⟨y, ys, rfl⟩
        have hlen : (List.filter (fun i => n.testBit i) (List.range k)).length ≠ 0 := by
          simp [List.length_eq_zero, hL]
        rw [if_neg hlen, hrev]
        simp only [List.reverse_cons, List.reverse_nil, List.nil_append,
          List.singleton_append, List.map_cons, List.length_append, List.length_cons,
          List.length_nil, joinTerms]
        rw [String.append_assoc]
    | false =>
      rw [if_neg (fun hc => absurd ((bit_cond n k).mp hc) (by simp [hbit]))]
      have hfk : List.filter (fun i => n.testBit i) [k] = [] := by simp [hbit]
      rw [List.range_succ, List.filter_append, hfk, List.append_nil]

/-! Claim theorems. -/

/-- Claim C1. The claim states that GF(2^8) multiplication is closed for all
8-bit operands; evaluating the code at the failing input a = 32, b = 128 shows
that `GF8Number(32) * 128` instead raises the bounds-check `ValueError` inside
the reduction scan, contradicting the claim (and the method's own docstring,
which promises the result fits in the field). -/
theorem C1_closure_fails : gf8Mul 32 128
    = Except.error (Err.valueError "Assertion failed: 0 <= index < len(self)") := by
  decide

/-- Claim C2. For the valid 8-bit operands a = 32 = x^5 and b = 128 = x^7, the
raw product is x^12 = 4096; the first reduction xor shrinks the bit vector to
9 bits (value 432), and the descending loop then reads bit 11 of it, which the
bounds-checked indexer rejects with a `ValueError`, so the whole multiplication
raises instead of returning a reduced product. -/
theorem C2_reduction_index_error :
    gf8New 32 false = Except.ok 32 ∧
    gf8New 128 true = Except.ok 128 ∧
    clMul 32 128 = 4096 ∧
    4096 ^^^ (SHRINK_MODULO <<< 4) = 432 ∧
    pyBitLen 432 = 9 ∧
    getBitN 432 11
      = Except.error (Err.valueError "Assertion failed: 0 <= index < len(self)") ∧
    shrink 4096
      = Except.error (Err.valueError "Assertion failed: 0 <= index < len(self)") ∧
    gf8Mul 32 128
      = Except.error (Err.valueError "Assertion failed: 0 <= index < len(self)") := by
  decide

/-- Claim C3, counterexample. The zero vector is not empty in the code:
`len(bin(0)[2:]) = len('0') = 1`, so `BitNumber(0)` has length 1, iterating
yields one bit, and `get_bit(0)` succeeds (returning 0) instead of failing. -/
theorem C3_cex : pyBitLen 0 ≠ 0 ∧ bitsOf 0 ≠ [] ∧ getBitI 0 0 = Except.ok 0 := by
  decide

/-- Claim C3, amended. `BitNumber(0)` has bit length 1, iterating yields the
single bit 0, `get_bit(0)` returns 0, and `get_bit` fails with the
index-out-of-range `ValueError` exactly for indices outside `[0, 1)`. -/
theorem C3_zero_vector :
    pyBitLen 0 = 1 ∧
    bitsOf 0 = [0] ∧
    getBitI 0 0 = Except.ok 0 ∧
    (∀ index : Int, 1 ≤ index → getBitI 0 index
      = Except.error (Err.valueError "Assertion failed: 0 <= index < len(self)")) ∧
    (∀ index : Int, index < 0 → getBitI 0 index
      = Except.error (Err.valueError "Assertion failed: 0 <= index < len(self)")) := by
  refine ⟨by decide, by decide, by decide, ?_, ?_⟩
  · intro index h1
    unfold getBitI
    rw [if_neg (by simp [pyBitLen]; omega)]
  · intro index h1
    unfold getBitI
    rw [if_neg (by simp [pyBitLen]; omega)]

/-- Claim C3, witness for the amended theorem's hypotheses at indices 5
and -1. -/
theorem C3_zero_vector_witness :
    getBitI 0 5 = Except.error (Err.valueError "Assertion failed: 0 <= index < len(self)") ∧
    getBitI 0 (-1)
      = Except.error (Err.valueError "Assertion failed: 0 <= index < len(self)") :=
  ⟨C3_zero_vector.2.2.2.1 5 (by decide), C3_zero_vector.2.2.2.2 (-1) (by decide)⟩

/-- Claim C4, counterexample. `GF8Number(175) * 3` reduces to 234; its
two-digit lowercase hex rendering is `"ea"` (prefixed: `"0xea"`), not the
`"ae"` the claim states. -/
theorem C4_cex :
    gf8Mul 175 3 = Except.ok 234 ∧
    gf8Hex 234 "" ≠ "ae" ∧
    gf8Hex 234 "0x" ≠ "0xae" := by
  decide

/-- Claim C4, amended. `GF8Number(175) * 3` reduces (modulo 0x11b) to 234,
whose polynomial rendering is `"x7 + x6 + x5 + x3 + x"` and whose two-digit
lowercase hex rendering is `"ea"`. -/
theorem C4_concrete_product :
    gf8Mul 175 3 = Except.ok 234 ∧
    pyStr 234 = "x7 + x6 + x5 + x3 + x" ∧
    gf8Hex 234 "" = "ea" ∧
    gf8Hex 234 "0x" = "0xea" := by
  decide

/-- Claim C5. Strict construction of `GF8Number(300)` fails with the
invariant-violation `ValueError`; in general strict construction succeeds
unchanged whenever the input already fits in 8 bits, and fails with that error
whenever the reduction step completes and reports that it changed the value. -/
theorem C5_strict_mode :
    gf8New 300 true = Except.error (Err.valueError "Assertion failed: shrunk == False") ∧
    (∀ n : Nat, pyBitLen n ≤ MAX_BITS → gf8New n true = Except.ok n) ∧
    (∀ n v : Nat, shrink n = Except.ok (v, true) →
      gf8New n true = Except.error (Err.valueError "Assertion failed: shrunk == False")) := by
  refine ⟨by decide, ?_, ?_⟩
  · intro n h
    exact gf8New_small h true
  · intro n v h
    unfold gf8New
    rw [h]
    rfl

/-- Claim C5, witness: 175 fits in 8 bits so strict construction succeeds, and
`shrink 300 = (55, true)` so strict construction of 300 fails. -/
theorem C5_strict_mode_witness :
    gf8New 175 true = Except.ok 175 ∧
    gf8New 300 true = Except.error (Err.valueError "Assertion failed: shrunk == False") :=
  ⟨C5_strict_mode.2.1 175 (by decide), C5_strict_mode.2.2 300 55 (by decide)⟩

/-- Claim C6, counterexample. For a = 300, b = 1 the two operand orders
disagree: `GF8Number(300) * 1` reduces 300 to 55 and returns it, while
`GF8Number(1) * 300` strict-checks 300 as the right operand and raises. -/
theorem C6_cex :
    gf8Mul 300 1 = Except.ok 55 ∧
    gf8Mul 1 300 = Except.error (Err.valueError "Assertion failed: shrunk == False") ∧
    gf8Mul 300 1 ≠ gf8Mul 1 300 := by
  decide

/-- Claim C6, amended. The generic shift-and-xor product of `GFNumber.__mul__`
is commutative for all operands, and `GF8Number(a) * b = GF8Number(b) * a`
holds (same value, or identical error) whenever both operands are valid 8-bit
field elements, i.e. below 256. -/
theorem C6_mul_comm :
    (∀ a b : Nat, clMul a b = clMul b a) ∧
    (∀ a b : Nat, a < 256 → b < 256 → gf8Mul a b = gf8Mul b a) := by
  refine ⟨clMul_comm, ?_⟩
  intro a b ha hb
  have ha8 : pyBitLen a ≤ 8 := (pyBitLen_le_iff a 8 (by norm_num)).mpr (by norm_num [ha])
  have hb8 : pyBitLen b ≤ 8 := (pyBitLen_le_iff b 8 (by norm_num)).mpr (by norm_num [hb])
  rw [gf8Mul_eq_small ha8 hb8, gf8Mul_eq_small hb8 ha8, clMul_comm b a]

/-- Claim C6, witness: commutativity at the concrete valid operands 175, 3. -/
theorem C6_mul_comm_witness : gf8Mul 175 3 = gf8Mul 3 175 :=
  C6_mul_comm.2 175 3 (by decide) (by decide)

/-- Claim C7. `GFNumber.__add__` is bitwise xor of the wrapped values (the
result built as a plain `GFNumber`), and adding any element to itself yields
`GFNumber(0)`. -/
theorem C7_add_xor_self_inverse :
    (∀ x y : GFVal, gfAddObj x y = { cls := PyClass.gfNumber, val := x.val ^^^ y.val }) ∧
    (∀ a b : Nat, gfAdd a b = a ^^^ b) ∧
    (∀ a : Nat, gfAddObj ⟨PyClass.gfNumber, a⟩ ⟨PyClass.gfNumber, a⟩
      = ⟨PyClass.gfNumber, 0⟩) := by
  refine ⟨fun x y => rfl, fun a b => rfl, ?_⟩
  intro a
  simp [gfAddObj, Nat.xor_self]

/-- Claim C8. `BitNumber.__getitem__` fails with the index-out-of-range
`ValueError` exactly when the integer index is outside `[0, len(self))`, and
otherwise returns `(value >> index) & 1`. -/
theorem C8_getitem_bounds : ∀ (n : Nat) (index : Int),
    (getBitI n index
        = Except.error (Err.valueError "Assertion failed: 0 <= index < len(self)")
      ↔ ¬ (0 ≤ index ∧ index < (pyBitLen n : Int))) ∧
    (0 ≤ index → index < (pyBitLen n : Int) →
      getBitI n index = Except.ok ((n >>> index.toNat) &&& 1)) := by
  intro n index
  unfold getBitI
  by_cases h : 0 ≤ index ∧ index < (pyBitLen n : Int)
  · rw [if_pos h]
    refine ⟨by simp [h], ?_⟩
    intro h1 h2
    rw [Nat.and_one_is_mod]
  · rw [if_neg h]
    exact ⟨by simp [h], fun h1 h2 => absurd ⟨h1, h2⟩ h⟩

/-- Claim C8, witness: in-range read of bit 3 of 175 returns 1. -/
theorem C8_getitem_bounds_witness : getBitI 175 3 = Except.ok ((175 >>> (3 : Int).toNat) &&& 1) :=
  (C8_getitem_bounds 175 3).2 (by decide) (by decide)

/-- Claim C9. The polynomial rendering of `GFNumber.__str__` equals the
spec-side rendering: the terms of the set bits in descending degree order
joined by ` + ` (with `x` for degree 1 and `1` for degree 0), and value 0
renders as the empty string. -/
theorem C9_poly_rendering : (∀ n : Nat, pyStr n = specStr n) ∧ pyStr 0 = "" := by
  refine ⟨?_, by decide⟩
  intro n
  rw [pyStr, strLoop_spec]
  rfl

/-- Claim C10. `GF8Number` inherits addition unchanged: the result of adding
two field elements is built as a plain `GFNumber` with no reduction step, and
whenever both operands fit in 8 bits so does their xor sum. -/
theorem C10_add_inherited :
    (∀ x y : GFVal, (gfAddObj x y).cls = PyClass.gfNumber ∧
      (gfAddObj x y).val = x.val ^^^ y.val) ∧
    (∀ x y : GFVal, pyBitLen x.val ≤ MAX_BITS → pyBitLen y.val ≤ MAX_BITS →
      pyBitLen (gfAddObj x y).val ≤ MAX_BITS) := by
  refine ⟨fun x y => ⟨rfl, rfl⟩, ?_⟩
  intro x y hx hy
  have h8 : (1 : Nat) ≤ 8 := by norm_num
  have hx2 : x.val < 2 ^ 8 := (pyBitLen_le_iff x.val 8 h8).mp hx
  have hy2 : y.val < 2 ^ 8 := (pyBitLen_le_iff y.val 8 h8).mp hy
  exact (pyBitLen_le_iff _ 8 h8).mpr (Nat.xor_lt_two_pow hx2 hy2)

/-- Claim C10, witness: adding the 8-bit values 175 and 3 (held in
`GF8Number` objects) yields a plain `GFNumber` whose value fits in 8 bits. -/
theorem C10_add_inherited_witness :
    (gfAddObj ⟨PyClass.gf8Number, 175⟩ ⟨PyClass.gf8Number, 3⟩).cls = PyClass.gfNumber ∧
    pyBitLen (gfAddObj ⟨PyClass.gf8Number, 175⟩ ⟨PyClass.gf8Number, 3⟩).val ≤ MAX_BITS :=
  ⟨(C10_add_inherited.1 _ _).1, C10_add_inherited.2 _ _ (by decide) (by decide)⟩

end GF8Py
